import Mathlib

/-!
Verification development for the recycling mini-game component
(`src/app/reciclaje-juego/reciclaje-juego.component.ts`).

The interaction and game-state engine of the component is embedded
shallowly: the mutable component fields become a `GameSt` record, the
event handlers (`onKeyDown`, `onKeyUp`, `tryInteract`, `checkGameState`)
and the per-frame loop (`animate`) become pure state transformers, and a
play session is a fold of events over a state.

Numeric conventions of the embedding:
* World coordinates and scales are exact rationals (the source uses JS
  doubles; the claims under study are order/equality properties that do
  not depend on rounding).
* `Vector3.distanceTo` computes a Euclidean distance (a square root).
  The source only ever *compares* distances (`dist < minDist`), and on
  nonnegative reals `sqrt a < sqrt b ↔ a < b`, so the embedding carries
  squared distances and compares those; the initial bound `maxDistance`
  is squared by `radiusSq`, which keeps a negative bound negative so
  that `dist < maxDistance` stays unsatisfiable exactly as in the
  source.  The bridge to the real square root is proved in `distLt_iff_sqrt`.
* The sine and cosine of the player's orientation, needed by
  `applyAxisAngle` in the frame loop, are supplied as event data of the
  tick (the embedding never needs their values, only where they flow).
-/

/-- The source union `type TrashType = 'organico' | 'reciclable' | 'general'`. -/
inductive TrashType where
  | organico
  | reciclable
  | general
deriving DecidableEq, Repr

/-- The string the HUD template literal prints for a `TrashType`. -/
def TrashType.label : TrashType → String
  | .organico => "organico"
  | .reciclable => "reciclable"
  | .general => "general"

/-- A `THREE.Vector3` with exact rational components. -/
structure Vec3 where
  x : ℚ
  y : ℚ
  z : ℚ
deriving DecidableEq, Repr

/-- Squared Euclidean distance between two points
(`itemPos.distanceTo(playerPos)` squared). -/
def distSq (a b : Vec3) : ℚ :=
  (a.x - b.x) ^ 2 + (a.y - b.y) ^ 2 + (a.z - b.z) ^ 2

/-- The squared-distance bound equivalent to the source's raw distance
bound `maxDistance`: for a nonnegative bound its square, and a negative
bound stays negative (no squared distance lies below it, just as no
distance lies below a negative bound). -/
def radiusSq (r : ℚ) : ℚ :=
  if 0 ≤ r then r * r else r

/-- Predicate `distLt dSq r`: holds when a point at squared distance `dSq` lies at
Euclidean distance strictly less than `r` (the comparison
`dist < maxDistance` of the source). -/
def distLt (dSq r : ℚ) : Prop :=
  dSq < radiusSq r

instance (dSq r : ℚ) : Decidable (distLt dSq r) := by
  unfold distLt; infer_instance

/-- The source `interface TrashItem` together with the identity and transform state
of its `THREE.Object3D` (`id` stands for JS reference identity; `pos`,
`rot`, `scale` are the object's transform — for a floor item the parent
is the scene, so `pos` is also its world position). The decorative
`labelSprite` is omitted. -/
structure TrashItem where
  id : ℕ
  pos : Vec3
  rot : Vec3
  scale : Vec3
  type : TrashType
  baseScale : ℚ
deriving DecidableEq, Repr

/-- The source `interface Bin` with the world position of its `THREE.Object3D`. -/
structure Bin where
  pos : Vec3
  type : TrashType
deriving DecidableEq, Repr

/-- The source union `type GameState = 'playing' | 'win' | 'lose'`. -/
inductive GameState where
  | playing
  | win
  | lose
deriving DecidableEq, Repr

/-- The counter record `recycledCount: Record<TrashType, number>`. -/
structure RecycledCount where
  organico : ℕ
  reciclable : ℕ
  general : ℕ
deriving DecidableEq, Repr

/-- Read the count of one category. -/
def RecycledCount.get (rc : RecycledCount) : TrashType → ℕ
  | .organico => rc.organico
  | .reciclable => rc.reciclable
  | .general => rc.general

/-- The increment `this.recycledCount[t]++`. -/
def RecycledCount.bump (rc : RecycledCount) : TrashType → RecycledCount
  | .organico => { rc with organico := rc.organico + 1 }
  | .reciclable => { rc with reciclable := rc.reciclable + 1 }
  | .general => { rc with general := rc.general + 1 }

/-- The loaded player model: its transform plus the world scale of the
attachment anchor `getHandAnchor()` resolves to (a hand bone when one
matches by name, else the model root — either way a fixed object whose
world scale `getWorldScale` reads). The player is a direct scene child,
so `pos` is also its world position. -/
structure Player where
  pos : Vec3
  rotY : ℚ
  anchorScale : Vec3
deriving DecidableEq, Repr

/-- The mutable game fields of `ReciclajeJuegoComponent`.  `player` is
`none` until `loadPlayerModel`'s callback fires; `walkAction` likewise,
carrying its `paused` flag once loaded.  Rendering-only state (camera,
renderer, sounds, sprites, instruction/settings toggles) is outside the
engine and omitted. -/
structure GameSt where
  player : Option Player
  walkAction : Option Bool
  moveForward : ℚ
  turn : ℚ
  trashItems : List TrashItem
  bins : List Bin
  carryingItem : Option TrashItem
  recycledCount : RecycledCount
  score : ℤ
  gameState : GameState
  showWinMenu : Bool
  showLoseMenu : Bool
  hudMessage : String
deriving DecidableEq, Repr

/-- The source constant `readonly pickupDistance = 40`. -/
def pickupDistance : ℚ := 40

/-- The source constant `readonly binDistance = 70`. -/
def binDistance : ℚ := 70

/-- One iteration of the linear-scan loop shared by `findNearestTrash`
and `findNearestBin`: the accumulator is the current `(nearest, minDist)`
pair (distances squared, see `radiusSq`); a candidate strictly closer
than the current best replaces it. -/
def nearestStep {α : Type} (f : α → Vec3) (playerPos : Vec3)
    (acc : Option α × ℚ) (item : α) : Option α × ℚ :=
  if distSq (f item) playerPos < acc.2 then (some item, distSq (f item) playerPos) else acc

/-- The common body of `findNearestTrash` and `findNearestBin`:
`minDist` starts at `maxDistance`, every candidate's world position is
read and its distance to `playerPos` compared strictly against the
current best. -/
def findNearest {α : Type} (items : List α) (f : α → Vec3)
    (playerPos : Vec3) (maxDistance : ℚ) : Option α :=
  (items.foldl (nearestStep f playerPos) (none, radiusSq maxDistance)).1

/-- The query `findNearestTrash(playerPos, maxDistance)` scanning `trashItems`. -/
def findNearestTrash (trashItems : List TrashItem) (playerPos : Vec3)
    (maxDistance : ℚ) : Option TrashItem :=
  findNearest trashItems (fun item => item.pos) playerPos maxDistance

/-- The query `findNearestBin(playerPos, maxDistance)` scanning `bins`. -/
def findNearestBin (bins : List Bin) (playerPos : Vec3)
    (maxDistance : ℚ) : Option Bin :=
  findNearest bins (fun bin => bin.pos) playerPos maxDistance

/-- The method `checkGameState()`: no-op unless playing; a score of 5 or more wins,
else a score of -2 or less loses; when the game just ended the motion
intents are zeroed and the walk animation (when loaded) paused.  The
source first assigns the new `gameState` and then freezes under a
`gameState !== 'playing'` re-check; starting from `playing` that
re-check holds exactly in the two threshold branches, so the net effect
of the method is this four-way conditional. -/
def checkGameState (st : GameSt) : GameSt :=
  if st.gameState ≠ GameState.playing then st
  else if st.score ≥ 5 then
    { st with gameState := GameState.win, showWinMenu := true,
              hudMessage := "¡Excelente! Clasificaste bien la basura. 🎉",
              moveForward := 0, turn := 0,
              walkAction := st.walkAction.map (fun _ => true) }
  else if st.score ≤ -2 then
    { st with gameState := GameState.lose, showLoseMenu := true,
              hudMessage := "Has reciclado mal demasiadas veces. 😢",
              moveForward := 0, turn := 0,
              walkAction := st.walkAction.map (fun _ => true) }
  else st

/-- The method `tryInteract()`: bail out without a loaded player or outside
`playing`.  Empty-handed: pick up the nearest floor item within
`pickupDistance` — remove it from `trashItems` (reference-identity
filter), rescale its local transform to `baseScale / anchorWorldScale`
componentwise, reparent near the hand and set the fixed local offset
`(0.1, 0.3, 0.2)` with zero rotation.  Carrying: deposit into the
nearest bin within `binDistance` — matching category scores +1 and bumps
that category's count, a mismatch scores -1; either way the item is
detached (discarded) and `checkGameState` runs. -/
def tryInteract (st : GameSt) : GameSt :=
  match st.player with
  | none => st
  | some p =>
    if st.gameState ≠ GameState.playing then st
    else
      match st.carryingItem with
      | none =>
        match findNearestTrash st.trashItems p.pos pickupDistance with
        | some nearestTrash =>
          let s := nearestTrash.baseScale
          let hws := p.anchorScale
          let carried : TrashItem :=
            { nearestTrash with
                scale := ⟨s / hws.x, s / hws.y, s / hws.z⟩,
                pos := ⟨1/10, 3/10, 2/10⟩,
                rot := ⟨0, 0, 0⟩ }
          { st with
              carryingItem := some carried,
              trashItems := st.trashItems.filter (fun t => t.id != nearestTrash.id),
              hudMessage := "Recogiste basura (" ++ nearestTrash.type.label
                ++ "). Llévala al contenedor correcto." }
        | none => { st with hudMessage := "No hay basura cerca para recoger." }
      | some carried =>
        match findNearestBin st.bins p.pos binDistance with
        | none => { st with hudMessage := "No hay ningún contenedor cerca. Acércate más." }
        | some nearestBin =>
          if nearestBin.type = carried.type then
            checkGameState
              { st with
                  recycledCount := st.recycledCount.bump nearestBin.type,
                  score := st.score + 1,
                  carryingItem := none,
                  hudMessage := "¡Bien! +1 punto. Puntos: " ++ toString (st.score + 1) }
          else
            checkGameState
              { st with
                  score := st.score - 1,
                  carryingItem := none,
                  hudMessage := "Contenedor incorrecto. -1 punto. Puntos: "
                    ++ toString (st.score - 1) }

/-- The recognized keys: `w`/`arrowup`, `s`/`arrowdown`, `a`/`arrowleft`,
`d`/`arrowright` are collapsed to their shared handler arm; `other`
stands for every unrecognized key. -/
inductive Key where
  | w
  | s
  | a
  | d
  | e
  | other
deriving DecidableEq, Repr

/-- The handler `onKeyDown`: ignored once the game is over; movement keys set the
intents, `e` triggers `tryInteract`. -/
def onKeyDown (k : Key) (st : GameSt) : GameSt :=
  if st.gameState ≠ GameState.playing then st
  else
    match k with
    | .w => { st with moveForward := 1 }
    | .s => { st with moveForward := -1 }
    | .a => { st with turn := 1 }
    | .d => { st with turn := -1 }
    | .e => tryInteract st
    | .other => st

/-- The handler `onKeyUp`: ignored once the game is over; releasing a movement key
zeroes the matching intent. -/
def onKeyUp (k : Key) (st : GameSt) : GameSt :=
  if st.gameState ≠ GameState.playing then st
  else
    match k with
    | .w => { st with moveForward := 0 }
    | .s => { st with moveForward := 0 }
    | .a => { st with turn := 0 }
    | .d => { st with turn := 0 }
    | .e => st
    | .other => st

/-- The frame-loop constant `const speed = 100`. -/
def speed : ℚ := 100

/-- The frame-loop constant `const rotationSpeed = 2.5`. -/
def rotationSpeed : ℚ := 5 / 2

/-- One tick of `animate` restricted to the engine state.  `delta` is
the frame's elapsed time; `c` and `s` are the cosine and sine of the
player's updated orientation, the data `applyAxisAngle` extracts when
rotating `(0,0,1)` about the y-axis (supplied by the environment, since
trigonometry of a rational angle is irrational).  Motion integration and
animation gating run only with a loaded player and only while playing;
camera work and rendering carry no engine state. -/
def animate (delta c s : ℚ) (st : GameSt) : GameSt :=
  match st.player with
  | none => st
  | some p =>
    if st.gameState = GameState.playing then
      let rotY := p.rotY - st.turn * rotationSpeed * delta
      let amount := st.moveForward * speed * delta
      let pos : Vec3 := ⟨p.pos.x + s * amount, p.pos.y, p.pos.z + c * amount⟩
      let isMoving := |st.moveForward| > 1/1000 ∨ |st.turn| > 1/1000
      { st with
          player := some { p with rotY := rotY, pos := pos },
          walkAction := st.walkAction.map (fun _ => decide ¬isMoving) }
    else st

/-- The discrete events the engine reacts to. -/
inductive Event where
  | keyDown (k : Key)
  | keyUp (k : Key)
  | interact
  | tick (delta c s : ℚ)
deriving DecidableEq, Repr

/-- Dispatch one event to its handler. -/
def step (st : GameSt) : Event → GameSt
  | .keyDown k => onKeyDown k st
  | .keyUp k => onKeyUp k st
  | .interact => tryInteract st
  | .tick delta c s => animate delta c s st

/-- Run a whole sequence of events. -/
def run (st : GameSt) (evs : List Event) : GameSt :=
  evs.foldl step st

/-- The identities of the floor-resident trash items. -/
def trashIds (st : GameSt) : List ℕ :=
  st.trashItems.map (fun t => t.id)

/-- The identity of the carried item, as a zero- or one-element list. -/
def carriedIds (st : GameSt) : List ℕ :=
  match st.carryingItem with
  | some c => [c.id]
  | none => []

/-- The registry invariant: every spawned item lives in exactly one
place — the identities on the floor together with the carried identity
are pairwise distinct. -/
def CarryInv (st : GameSt) : Prop :=
  (trashIds st ++ carriedIds st).Nodup

instance (st : GameSt) : Decidable (CarryInv st) := by
  unfold CarryInv; infer_instance

/-- The inductive score invariant: while playing the score stays in
`[-1, 4]` (a deposit moves it by one and `checkGameState` immediately
retires any score outside that band), and a retired game holds a score
in `[-2, 5]`. -/
def ScoreInv (st : GameSt) : Prop :=
  if st.gameState = GameState.playing then -1 ≤ st.score ∧ st.score ≤ 4
  else -2 ≤ st.score ∧ st.score ≤ 5

instance (st : GameSt) : Decidable (ScoreInv st) := by
  unfold ScoreInv; infer_instance

/-- A loaded player at the origin, scaled 30 like `hombre.glb`. -/
def demoPlayer : Player :=
  ⟨⟨0, 0, 0⟩, 0, ⟨30, 30, 30⟩⟩

/-- A floor trash item with identity `n` at position `pos`. -/
def demoTrash (n : ℕ) (ty : TrashType) (pos : Vec3) : TrashItem :=
  ⟨n, pos, ⟨0, 0, 0⟩, ⟨1/10, 1/10, 1/10⟩, ty, 1/10⟩

/-- A freshly initialized session (score 0, playing, empty hands) with
the given registry contents. -/
def demoState (items : List TrashItem) (bs : List Bin) : GameSt :=
  { player := some demoPlayer, walkAction := some true,
    moveForward := 0, turn := 0,
    trashItems := items, bins := bs, carryingItem := none,
    recycledCount := ⟨0, 0, 0⟩, score := 0, gameState := GameState.playing,
    showWinMenu := false, showLoseMenu := false, hudMessage := "" }

/-- Five organic items under the player's feet and the organic bin 50
units away: the winning play. -/
def winDemo : GameSt :=
  demoState
    [demoTrash 0 TrashType.organico ⟨0, 0, 0⟩,
     demoTrash 1 TrashType.organico ⟨0, 0, 0⟩,
     demoTrash 2 TrashType.organico ⟨0, 0, 0⟩,
     demoTrash 3 TrashType.organico ⟨0, 0, 0⟩,
     demoTrash 4 TrashType.organico ⟨0, 0, 0⟩]
    [⟨⟨0, 0, 50⟩, TrashType.organico⟩]

/-- Two organic items but only the recyclable bin in reach: the losing
play. -/
def loseDemo : GameSt :=
  demoState
    [demoTrash 0 TrashType.organico ⟨0, 0, 0⟩,
     demoTrash 1 TrashType.organico ⟨0, 0, 0⟩]
    [⟨⟨0, 0, 50⟩, TrashType.reciclable⟩]

/-- Ten presses of `e`: five pickup/deposit rounds. -/
def winEvents : List Event :=
  List.replicate 10 Event.interact

/-- Four presses of `e`: two pickup/deposit rounds. -/
def loseEvents : List Event :=
  List.replicate 4 Event.interact

/-- Carrying an organic item next to the organic bin. -/
def carryDemo : GameSt :=
  { demoState [] [⟨⟨0, 0, 50⟩, TrashType.organico⟩] with
      carryingItem := some (demoTrash 9 TrashType.organico ⟨1/10, 3/10, 2/10⟩) }

/-- Carrying an organic item next to the recyclable bin. -/
def wrongBinDemo : GameSt :=
  { demoState [] [⟨⟨0, 0, 50⟩, TrashType.reciclable⟩] with
      carryingItem := some (demoTrash 9 TrashType.organico ⟨1/10, 3/10, 2/10⟩) }

/-- Carrying an item with the only bin 500 units away. -/
def farBinDemo : GameSt :=
  { demoState [] [⟨⟨0, 0, 500⟩, TrashType.organico⟩] with
      carryingItem := some (demoTrash 9 TrashType.organico ⟨1/10, 3/10, 2/10⟩) }

/-- A finished (won) session. -/
def wonDemo : GameSt :=
  { demoState [] [] with gameState := GameState.win, score := 5 }

/-- A session whose player model never loaded. -/
def noPlayerDemo : GameSt :=
  { demoState [demoTrash 0 TrashType.organico ⟨0, 0, 0⟩] [] with player := none }

/-- A playing state that just reached the winning score. -/
def fiveDemo : GameSt :=
  { demoState [] [] with score := 5 }

section NearestLemmas

variable {α : Type} (f : α → Vec3) (pp : Vec3)

lemma nearestStep_snd_le (acc : Option α × ℚ) (it : α) :
    (nearestStep f pp acc it).2 ≤ acc.2 := by
  unfold nearestStep
  split_ifs with h
  · exact le_of_lt h
  · exact le_refl _

lemma foldl_nearestStep_snd_le (l : List α) (acc : Option α × ℚ) :
    (l.foldl (nearestStep f pp) acc).2 ≤ acc.2 := by
  induction l generalizing acc with
  | nil => exact le_refl _
  | cons a l ih =>
    exact le_trans (ih (nearestStep f pp acc a)) (nearestStep_snd_le f pp acc a)

lemma foldl_nearestStep_fst_isSome (l : List α) (acc : Option α × ℚ)
    (h : acc.1.isSome) : ((l.foldl (nearestStep f pp) acc).1).isSome := by
  induction l generalizing acc with
  | nil => exact h
  | cons a l ih =>
    apply ih
    unfold nearestStep
    split_ifs with hd
    · rfl
    · exact h

lemma foldl_nearestStep_fst_none (l : List α) (acc : Option α × ℚ)
    (h : (l.foldl (nearestStep f pp) acc).1 = none) :
    ∀ it ∈ l, ¬ distSq (f it) pp < acc.2 := by
  induction l generalizing acc with
  | nil => intro it hit; exact absurd hit (List.not_mem_nil it)
  | cons a l ih =>
    intro it hit
    by_cases hd : distSq (f a) pp < acc.2
    · exfalso
      have hsome : ((l.foldl (nearestStep f pp) (nearestStep f pp acc a)).1).isSome := by
        apply foldl_nearestStep_fst_isSome
        unfold nearestStep
        rw [if_pos hd]
        rfl
      rw [show (a :: l).foldl (nearestStep f pp) acc
            = l.foldl (nearestStep f pp) (nearestStep f pp acc a) from rfl] at h
      rw [h] at hsome
      exact Bool.noConfusion hsome
    · have hstep : nearestStep f pp acc a = acc := by
        unfold nearestStep; rw [if_neg hd]
      rcases List.mem_cons.mp hit with heq | hmem
      · subst heq; exact hd
      · have h' : (l.foldl (nearestStep f pp) acc).1 = none := by
          rw [show (a :: l).foldl (nearestStep f pp) acc
                = l.foldl (nearestStep f pp) (nearestStep f pp acc a) from rfl, hstep] at h
          exact h
        exact ih acc h' it hmem

lemma foldl_nearestStep_of_far (l : List α) (acc : Option α × ℚ)
    (h : ∀ it ∈ l, ¬ distSq (f it) pp < acc.2) :
    l.foldl (nearestStep f pp) acc = acc := by
  induction l with
  | nil => rfl
  | cons a l ih =>
    have hstep : nearestStep f pp acc a = acc := by
      unfold nearestStep; rw [if_neg (h a (List.mem_cons_self a l))]
    rw [show (a :: l).foldl (nearestStep f pp) acc
          = l.foldl (nearestStep f pp) (nearestStep f pp acc a) from rfl, hstep]
    exact ih (fun it hit => h it (List.mem_cons_of_mem a hit))

lemma foldl_nearestStep_snd_le_dist (l : List α) (acc : Option α × ℚ)
    (it : α) (hit : it ∈ l) :
    (l.foldl (nearestStep f pp) acc).2 ≤ distSq (f it) pp := by
  induction l generalizing acc with
  | nil => exact absurd hit (List.not_mem_nil it)
  | cons a l ih =>
    rw [show (a :: l).foldl (nearestStep f pp) acc
          = l.foldl (nearestStep f pp) (nearestStep f pp acc a) from rfl]
    rcases List.mem_cons.mp hit with heq | hmem
    · subst heq
      by_cases hd : distSq (f it) pp < acc.2
      · have : (nearestStep f pp acc it).2 = distSq (f it) pp := by
          unfold nearestStep; rw [if_pos hd]
        calc (l.foldl (nearestStep f pp) (nearestStep f pp acc it)).2
            ≤ (nearestStep f pp acc it).2 := foldl_nearestStep_snd_le f pp l _
          _ = distSq (f it) pp := this
      · have hstep : nearestStep f pp acc it = acc := by
          unfold nearestStep; rw [if_neg hd]
        calc (l.foldl (nearestStep f pp) (nearestStep f pp acc it)).2
            ≤ (nearestStep f pp acc it).2 := foldl_nearestStep_snd_le f pp l _
          _ = acc.2 := by rw [hstep]
          _ ≤ distSq (f it) pp := not_lt.mp hd
    · exact ih (nearestStep f pp acc a) hmem

lemma foldl_nearestStep_cases (l : List α) (acc : Option α × ℚ) :
    l.foldl (nearestStep f pp) acc = acc ∨
      ∃ x ∈ l, (l.foldl (nearestStep f pp) acc).1 = some x ∧
        (l.foldl (nearestStep f pp) acc).2 = distSq (f x) pp := by
  induction l generalizing acc with
  | nil => exact Or.inl rfl
  | cons a l ih =>
    rw [show (a :: l).foldl (nearestStep f pp) acc
          = l.foldl (nearestStep f pp) (nearestStep f pp acc a) from rfl]
    by_cases hd : distSq (f a) pp < acc.2
    · have hstep : nearestStep f pp acc a = (some a, distSq (f a) pp) := by
        unfold nearestStep; rw [if_pos hd]
      rcases ih (nearestStep f pp acc a) with heq | ⟨x, hx, h1, h2⟩
      · refine Or.inr ⟨a, List.mem_cons_self a l, ?_, ?_⟩
        · rw [heq, hstep]
        · rw [heq, hstep]
      · exact Or.inr ⟨x, List.mem_cons_of_mem a hx, h1, h2⟩
    · have hstep : nearestStep f pp acc a = acc := by
        unfold nearestStep; rw [if_neg hd]
      rw [hstep]
      rcases ih acc with heq | ⟨x, hx, h1, h2⟩
      · exact Or.inl heq
      · exact Or.inr ⟨x, List.mem_cons_of_mem a hx, h1, h2⟩

lemma foldl_nearestStep_snd_lt (l : List α) (acc : Option α × ℚ)
    (h : (l.foldl (nearestStep f pp) acc).1 ≠ acc.1) :
    (l.foldl (nearestStep f pp) acc).2 < acc.2 := by
  induction l generalizing acc with
  | nil => exact absurd rfl h
  | cons a l ih =>
    rw [show (a :: l).foldl (nearestStep f pp) acc
          = l.foldl (nearestStep f pp) (nearestStep f pp acc a) from rfl] at h ⊢
    by_cases hd : distSq (f a) pp < acc.2
    · have hstep : (nearestStep f pp acc a).2 = distSq (f a) pp := by
        unfold nearestStep; rw [if_pos hd]
      calc (l.foldl (nearestStep f pp) (nearestStep f pp acc a)).2
          ≤ (nearestStep f pp acc a).2 := foldl_nearestStep_snd_le f pp l _
        _ = distSq (f a) pp := hstep
        _ < acc.2 := hd
    · have hstep : nearestStep f pp acc a = acc := by
        unfold nearestStep; rw [if_neg hd]
      rw [hstep] at h ⊢
      exact ih acc h

lemma findNearest_eq_none_iff (l : List α) (r : ℚ) :
    findNearest l f pp r = none ↔
      ∀ it ∈ l, ¬ distLt (distSq (f it) pp) r := by
  unfold findNearest distLt
  constructor
  · intro h it hit
    exact foldl_nearestStep_fst_none f pp l (none, radiusSq r) h it hit
  · intro h
    rw [foldl_nearestStep_of_far f pp l (none, radiusSq r) h]

lemma findNearest_eq_some (l : List α) (r : ℚ) (it : α)
    (h : findNearest l f pp r = some it) :
    it ∈ l ∧ distLt (distSq (f it) pp) r ∧
      ∀ o ∈ l, distSq (f it) pp ≤ distSq (f o) pp := by
  unfold findNearest at h
  rcases foldl_nearestStep_cases f pp l (none, radiusSq r) with heq | ⟨x, hx, h1, h2⟩
  · rw [heq] at h; exact Option.noConfusion h
  · have hxit : x = it := by
      rw [h1] at h; exact Option.some.inj h
    subst hxit
    refine ⟨hx, ?_, ?_⟩
    · have hne : (l.foldl (nearestStep f pp) (none, radiusSq r)).1
          ≠ (none, radiusSq r).1 := by
        rw [h1]; exact fun hc => Option.noConfusion hc
      have := foldl_nearestStep_snd_lt f pp l (none, radiusSq r) hne
      rw [h2] at this
      exact this
    · intro o ho
      have := foldl_nearestStep_snd_le_dist f pp l (none, radiusSq r) o ho
      rw [h2] at this
      exact this

lemma findNearest_strict_min (l : List α) (r : ℚ) (it : α)
    (hit : it ∈ l) (hlt : distLt (distSq (f it) pp) r)
    (hmin : ∀ o ∈ l, o ≠ it → distSq (f it) pp < distSq (f o) pp) :
    findNearest l f pp r = some it := by
  cases hres : findNearest l f pp r with
  | none => exact absurd hlt ((findNearest_eq_none_iff f pp l r).mp hres it hit)
  | some y =>
    rcases findNearest_eq_some f pp l r y hres with ⟨hy, _, hle⟩
    by_cases hyit : y = it
    · subst hyit; rfl
    · exact absurd (lt_of_lt_of_le (hmin y hy hyit) (hle it hit)) (lt_irrefl _)

end NearestLemmas

lemma distSq_nonneg (a b : Vec3) : 0 ≤ distSq a b := by
  unfold distSq
  positivity

/-- Comparison bridge: `distLt` is exactly the source's comparison of the Euclidean
distance (the square root of `distSq`) against the raw bound. -/
lemma distLt_iff_sqrt (dq r : ℚ) (h : 0 ≤ dq) :
    distLt dq r ↔ Real.sqrt (dq : ℝ) < (r : ℝ) := by
  unfold distLt radiusSq
  split_ifs with hr
  · rcases lt_or_eq_of_le hr with hr0 | hr0
    · rw [Real.sqrt_lt' (by exact_mod_cast hr0), pow_two, ← Rat.cast_mul, Rat.cast_lt]
    · rw [← hr0]
      constructor
      · intro hc; exact absurd hc (by simp [not_lt, h])
      · intro hc
        exact absurd hc (not_lt.mpr (by simp [Real.sqrt_nonneg]))
  · constructor
    · intro hc; exact absurd hc (not_lt.mpr (le_trans (le_of_lt (not_le.mp hr)) h))
    · intro hc
      exact absurd hc (not_lt.mpr (le_trans (by exact_mod_cast le_of_lt (not_le.mp hr))
        (Real.sqrt_nonneg (dq : ℝ))))

section BranchLemmas

variable (st : GameSt)

lemma checkGameState_not_playing (h : st.gameState ≠ GameState.playing) :
    checkGameState st = st := by
  unfold checkGameState; rw [if_pos h]

lemma checkGameState_win (h : st.gameState = GameState.playing)
    (h5 : st.score ≥ 5) :
    checkGameState st =
      { st with gameState := GameState.win, showWinMenu := true,
                hudMessage := "¡Excelente! Clasificaste bien la basura. 🎉",
                moveForward := 0, turn := 0,
                walkAction := st.walkAction.map (fun _ => true) } := by
  unfold checkGameState; rw [if_neg (not_not_intro h), if_pos h5]

lemma checkGameState_lose (h : st.gameState = GameState.playing)
    (h5 : ¬ st.score ≥ 5) (h2 : st.score ≤ -2) :
    checkGameState st =
      { st with gameState := GameState.lose, showLoseMenu := true,
                hudMessage := "Has reciclado mal demasiadas veces. 😢",
                moveForward := 0, turn := 0,
                walkAction := st.walkAction.map (fun _ => true) } := by
  unfold checkGameState; rw [if_neg (not_not_intro h), if_neg h5, if_pos h2]

lemma checkGameState_stay (h : st.gameState = GameState.playing)
    (h5 : ¬ st.score ≥ 5) (h2 : ¬ st.score ≤ -2) :
    checkGameState st = st := by
  unfold checkGameState; rw [if_neg (not_not_intro h), if_neg h5, if_neg h2]

lemma checkGameState_score : (checkGameState st).score = st.score := by
  unfold checkGameState; split_ifs <;> rfl

lemma checkGameState_trashItems :
    (checkGameState st).trashItems = st.trashItems := by
  unfold checkGameState; split_ifs <;> rfl

lemma checkGameState_bins : (checkGameState st).bins = st.bins := by
  unfold checkGameState; split_ifs <;> rfl

lemma checkGameState_carryingItem :
    (checkGameState st).carryingItem = st.carryingItem := by
  unfold checkGameState; split_ifs <;> rfl

lemma checkGameState_recycledCount :
    (checkGameState st).recycledCount = st.recycledCount := by
  unfold checkGameState; split_ifs <;> rfl

lemma checkGameState_player : (checkGameState st).player = st.player := by
  unfold checkGameState; split_ifs <;> rfl

end BranchLemmas

section InteractLemmas

variable (st : GameSt) (p : Player)

lemma tryInteract_no_player (h : st.player = none) : tryInteract st = st := by
  unfold tryInteract; rw [h]

lemma tryInteract_not_playing (h : st.gameState ≠ GameState.playing) :
    tryInteract st = st := by
  unfold tryInteract
  cases hp : st.player with
  | none => rfl
  | some p => dsimp only; rw [if_pos h]

lemma tryInteract_pickup (n : TrashItem)
    (hp : st.player = some p) (hg : st.gameState = GameState.playing)
    (hc : st.carryingItem = none)
    (hn : findNearestTrash st.trashItems p.pos pickupDistance = some n) :
    tryInteract st =
      { st with
          carryingItem := some
            { n with
                scale := ⟨n.baseScale / p.anchorScale.x,
                          n.baseScale / p.anchorScale.y,
                          n.baseScale / p.anchorScale.z⟩,
                pos := ⟨1/10, 3/10, 2/10⟩,
                rot := ⟨0, 0, 0⟩ },
          trashItems := st.trashItems.filter (fun t => t.id != n.id),
          hudMessage := "Recogiste basura (" ++ n.type.label
            ++ "). Llévala al contenedor correcto." } := by
  unfold tryInteract
  rw [hp]
  dsimp only
  rw [if_neg (not_not_intro hg), hc]
  dsimp only
  rw [hn]

lemma tryInteract_pickup_fail
    (hp : st.player = some p) (hg : st.gameState = GameState.playing)
    (hc : st.carryingItem = none)
    (hn : findNearestTrash st.trashItems p.pos pickupDistance = none) :
    tryInteract st = { st with hudMessage := "No hay basura cerca para recoger." } := by
  unfold tryInteract
  rw [hp]
  dsimp only
  rw [if_neg (not_not_intro hg), hc]
  dsimp only
  rw [hn]

lemma tryInteract_nobin (c : TrashItem)
    (hp : st.player = some p) (hg : st.gameState = GameState.playing)
    (hc : st.carryingItem = some c)
    (hb : findNearestBin st.bins p.pos binDistance = none) :
    tryInteract st =
      { st with hudMessage := "No hay ningún contenedor cerca. Acércate más." } := by
  unfold tryInteract
  rw [hp]
  dsimp only
  rw [if_neg (not_not_intro hg), hc]
  dsimp only
  rw [hb]

lemma tryInteract_deposit_correct (c : TrashItem) (b : Bin)
    (hp : st.player = some p) (hg : st.gameState = GameState.playing)
    (hc : st.carryingItem = some c)
    (hb : findNearestBin st.bins p.pos binDistance = some b)
    (hty : b.type = c.type) :
    tryInteract st =
      checkGameState
        { st with
            recycledCount := st.recycledCount.bump b.type,
            score := st.score + 1,
            carryingItem := none,
            hudMessage := "¡Bien! +1 punto. Puntos: " ++ toString (st.score + 1) } := by
  unfold tryInteract
  rw [hp]
  dsimp only
  rw [if_neg (not_not_intro hg), hc]
  dsimp only
  rw [hb]
  dsimp only
  rw [if_pos hty]

lemma tryInteract_deposit_wrong (c : TrashItem) (b : Bin)
    (hp : st.player = some p) (hg : st.gameState = GameState.playing)
    (hc : st.carryingItem = some c)
    (hb : findNearestBin st.bins p.pos binDistance = some b)
    (hty : ¬ b.type = c.type) :
    tryInteract st =
      checkGameState
        { st with
            score := st.score - 1,
            carryingItem := none,
            hudMessage := "Contenedor incorrecto. -1 punto. Puntos: "
              ++ toString (st.score - 1) } := by
  unfold tryInteract
  rw [hp]
  dsimp only
  rw [if_neg (not_not_intro hg), hc]
  dsimp only
  rw [hb]
  dsimp only
  rw [if_neg hty]

end InteractLemmas

section TerminalLemmas

variable (st : GameSt)

lemma onKeyDown_not_playing (k : Key) (h : st.gameState ≠ GameState.playing) :
    onKeyDown k st = st := by
  unfold onKeyDown; rw [if_pos h]

lemma onKeyUp_not_playing (k : Key) (h : st.gameState ≠ GameState.playing) :
    onKeyUp k st = st := by
  unfold onKeyUp; rw [if_pos h]

lemma animate_not_playing (delta c s : ℚ) (h : st.gameState ≠ GameState.playing) :
    animate delta c s st = st := by
  unfold animate
  cases hp : st.player with
  | none => rfl
  | some p => dsimp only; rw [if_neg h]

lemma step_not_playing (ev : Event) (h : st.gameState ≠ GameState.playing) :
    step st ev = st := by
  cases ev with
  | keyDown k => exact onKeyDown_not_playing st k h
  | keyUp k => exact onKeyUp_not_playing st k h
  | interact => exact tryInteract_not_playing st h
  | tick delta c s => exact animate_not_playing st delta c s h

lemma run_not_playing (evs : List Event) (h : st.gameState ≠ GameState.playing) :
    run st evs = st := by
  induction evs with
  | nil => rfl
  | cons ev evs ih =>
    show run (step st ev) evs = st
    rw [step_not_playing st ev h]
    exact ih

end TerminalLemmas

section InvariantLemmas

variable (st : GameSt)

lemma carryInv_checkGameState (h : CarryInv st) : CarryInv (checkGameState st) := by
  unfold CarryInv trashIds carriedIds at h ⊢
  rw [checkGameState_trashItems, checkGameState_carryingItem]
  exact h

lemma carryInv_tryInteract (h : CarryInv st) : CarryInv (tryInteract st) := by
  cases hp : st.player with
  | none => rw [tryInteract_no_player st hp]; exact h
  | some p =>
    by_cases hg : st.gameState = GameState.playing
    · cases hc : st.carryingItem with
      | none =>
        cases hn : findNearestTrash st.trashItems p.pos pickupDistance with
        | none => rw [tryInteract_pickup_fail st p hp hg hc hn]; exact h
        | some n =>
          rw [tryInteract_pickup st p n hp hg hc hn]
          unfold CarryInv trashIds carriedIds at h ⊢
          rw [hc] at h
          dsimp only at h ⊢
          rw [List.append_nil] at h
          rw [List.nodup_append]
          refine ⟨?_, List.nodup_singleton _, ?_⟩
          · exact List.Nodup.sublist
              (List.Sublist.map _ (List.filter_sublist st.trashItems)) h
          · intro a ha hmem
            rcases List.mem_map.mp ha with ⟨t, ht, rfl⟩
            rcases List.mem_filter.mp ht with ⟨_, hne⟩
            exact absurd (List.mem_singleton.mp hmem) (bne_iff_ne.mp hne)
      | some c =>
        cases hb : findNearestBin st.bins p.pos binDistance with
        | none => rw [tryInteract_nobin st p c hp hg hc hb]; exact h
        | some b =>
          by_cases hty : b.type = c.type
          · rw [tryInteract_deposit_correct st p c b hp hg hc hb hty]
            apply carryInv_checkGameState
            unfold CarryInv trashIds carriedIds at h ⊢
            dsimp only
            rw [List.append_nil]
            rw [hc] at h
            dsimp only at h
            exact List.Nodup.of_append_left h
          · rw [tryInteract_deposit_wrong st p c b hp hg hc hb hty]
            apply carryInv_checkGameState
            unfold CarryInv trashIds carriedIds at h ⊢
            dsimp only
            rw [List.append_nil]
            rw [hc] at h
            dsimp only at h
            exact List.Nodup.of_append_left h
    · rw [tryInteract_not_playing st hg]; exact h

lemma carryInv_onKeyDown (k : Key) (h : CarryInv st) :
    CarryInv (onKeyDown k st) := by
  unfold onKeyDown
  split_ifs with hg
  · exact h
  · cases k with
    | w => exact h
    | s => exact h
    | a => exact h
    | d => exact h
    | e => exact carryInv_tryInteract st h
    | other => exact h

lemma carryInv_onKeyUp (k : Key) (h : CarryInv st) :
    CarryInv (onKeyUp k st) := by
  unfold onKeyUp
  split_ifs with hg
  · exact h
  · cases k with
    | w => exact h
    | s => exact h
    | a => exact h
    | d => exact h
    | e => exact h
    | other => exact h

lemma carryInv_animate (delta c s : ℚ) (h : CarryInv st) :
    CarryInv (animate delta c s st) := by
  unfold animate
  cases hp : st.player with
  | none => exact h
  | some p =>
    dsimp only
    split_ifs with hg
    · exact h
    · exact h

lemma carryInv_step (ev : Event) (h : CarryInv st) : CarryInv (step st ev) := by
  cases ev with
  | keyDown k => exact carryInv_onKeyDown st k h
  | keyUp k => exact carryInv_onKeyUp st k h
  | interact => exact carryInv_tryInteract st h
  | tick delta c s => exact carryInv_animate st delta c s h

lemma carryInv_run (evs : List Event) (h : CarryInv st) :
    CarryInv (run st evs) := by
  induction evs generalizing st with
  | nil => exact h
  | cons ev evs ih =>
    show CarryInv (run (step st ev) evs)
    exact ih (step st ev) (carryInv_step st ev h)

lemma scoreInv_checkGameState (hg : st.gameState = GameState.playing)
    (hlo : -2 ≤ st.score) (hhi : st.score ≤ 5) :
    ScoreInv (checkGameState st) := by
  by_cases h5 : st.score ≥ 5
  · rw [checkGameState_win st hg h5]
    unfold ScoreInv
    dsimp only
    rw [if_neg (by decide)]
    exact ⟨hlo, hhi⟩
  · by_cases h2 : st.score ≤ -2
    · rw [checkGameState_lose st hg h5 h2]
      unfold ScoreInv
      dsimp only
      rw [if_neg (by decide)]
      exact ⟨hlo, hhi⟩
    · rw [checkGameState_stay st hg h5 h2]
      unfold ScoreInv
      rw [if_pos hg]
      constructor <;> omega

lemma scoreInv_tryInteract (h : ScoreInv st) : ScoreInv (tryInteract st) := by
  cases hp : st.player with
  | none => rw [tryInteract_no_player st hp]; exact h
  | some p =>
    by_cases hg : st.gameState = GameState.playing
    · have hb : -1 ≤ st.score ∧ st.score ≤ 4 := by
        unfold ScoreInv at h
        rw [if_pos hg] at h
        exact h
      cases hc : st.carryingItem with
      | none =>
        cases hn : findNearestTrash st.trashItems p.pos pickupDistance with
        | none => rw [tryInteract_pickup_fail st p hp hg hc hn]; exact h
        | some n => rw [tryInteract_pickup st p n hp hg hc hn]; exact h
      | some c =>
        cases hbn : findNearestBin st.bins p.pos binDistance with
        | none => rw [tryInteract_nobin st p c hp hg hc hbn]; exact h
        | some b =>
          by_cases hty : b.type = c.type
          · rw [tryInteract_deposit_correct st p c b hp hg hc hbn hty]
            apply scoreInv_checkGameState
            · exact hg
            · show -2 ≤ st.score + 1; omega
            · show st.score + 1 ≤ 5; omega
          · rw [tryInteract_deposit_wrong st p c b hp hg hc hbn hty]
            apply scoreInv_checkGameState
            · exact hg
            · show -2 ≤ st.score - 1; omega
            · show st.score - 1 ≤ 5; omega
    · rw [tryInteract_not_playing st hg]; exact h

lemma scoreInv_onKeyDown (k : Key) (h : ScoreInv st) :
    ScoreInv (onKeyDown k st) := by
  unfold onKeyDown
  split_ifs with hg
  · exact h
  · cases k with
    | w => exact h
    | s => exact h
    | a => exact h
    | d => exact h
    | e => exact scoreInv_tryInteract st h
    | other => exact h

lemma scoreInv_onKeyUp (k : Key) (h : ScoreInv st) :
    ScoreInv (onKeyUp k st) := by
  unfold onKeyUp
  split_ifs with hg
  · exact h
  · cases k with
    | w => exact h
    | s => exact h
    | a => exact h
    | d => exact h
    | e => exact h
    | other => exact h

lemma scoreInv_animate (delta c s : ℚ) (h : ScoreInv st) :
    ScoreInv (animate delta c s st) := by
  unfold animate
  cases hp : st.player with
  | none => exact h
  | some p =>
    dsimp only
    split_ifs with hg
    · exact h
    · exact h

lemma scoreInv_step (ev : Event) (h : ScoreInv st) : ScoreInv (step st ev) := by
  cases ev with
  | keyDown k => exact scoreInv_onKeyDown st k h
  | keyUp k => exact scoreInv_onKeyUp st k h
  | interact => exact scoreInv_tryInteract st h
  | tick delta c s => exact scoreInv_animate st delta c s h

lemma scoreInv_run (evs : List Event) (h : ScoreInv st) :
    ScoreInv (run st evs) := by
  induction evs generalizing st with
  | nil => exact h
  | cons ev evs ih =>
    show ScoreInv (run (step st ev) evs)
    exact ih (step st ev) (scoreInv_step st ev h)

lemma trashItems_tryInteract_sublist :
    (tryInteract st).trashItems.Sublist st.trashItems := by
  cases hp : st.player with
  | none => rw [tryInteract_no_player st hp]
  | some p =>
    by_cases hg : st.gameState = GameState.playing
    · cases hc : st.carryingItem with
      | none =>
        cases hn : findNearestTrash st.trashItems p.pos pickupDistance with
        | none => rw [tryInteract_pickup_fail st p hp hg hc hn]
        | some n =>
          rw [tryInteract_pickup st p n hp hg hc hn]
          exact List.filter_sublist st.trashItems
      | some c =>
        cases hbn : findNearestBin st.bins p.pos binDistance with
        | none => rw [tryInteract_nobin st p c hp hg hc hbn]
        | some b =>
          by_cases hty : b.type = c.type
          · rw [tryInteract_deposit_correct st p c b hp hg hc hbn hty,
              checkGameState_trashItems]
          · rw [tryInteract_deposit_wrong st p c b hp hg hc hbn hty,
              checkGameState_trashItems]
    · rw [tryInteract_not_playing st hg]

lemma trashItems_step_sublist (ev : Event) :
    (step st ev).trashItems.Sublist st.trashItems := by
  cases ev with
  | keyDown k =>
    show (onKeyDown k st).trashItems.Sublist st.trashItems
    unfold onKeyDown
    split_ifs with hg
    · exact List.Sublist.refl _
    · cases k with
      | w => exact List.Sublist.refl _
      | s => exact List.Sublist.refl _
      | a => exact List.Sublist.refl _
      | d => exact List.Sublist.refl _
      | e => exact trashItems_tryInteract_sublist st
      | other => exact List.Sublist.refl _
  | keyUp k =>
    show (onKeyUp k st).trashItems.Sublist st.trashItems
    unfold onKeyUp
    split_ifs with hg
    · exact List.Sublist.refl _
    · cases k with
      | w => exact List.Sublist.refl _
      | s => exact List.Sublist.refl _
      | a => exact List.Sublist.refl _
      | d => exact List.Sublist.refl _
      | e => exact List.Sublist.refl _
      | other => exact List.Sublist.refl _
  | interact => exact trashItems_tryInteract_sublist st
  | tick delta c s =>
    show (animate delta c s st).trashItems.Sublist st.trashItems
    unfold animate
    cases hp : st.player with
    | none => exact List.Sublist.refl _
    | some p =>
      dsimp only
      split_ifs with hg
      · exact List.Sublist.refl _
      · exact List.Sublist.refl _

lemma trashItems_run_sublist (evs : List Event) :
    (run st evs).trashItems.Sublist st.trashItems := by
  induction evs generalizing st with
  | nil => exact List.Sublist.refl _
  | cons ev evs ih =>
    show (run (step st ev) evs).trashItems.Sublist st.trashItems
    exact List.Sublist.trans (ih (step st ev)) (trashItems_step_sublist st ev)

end InvariantLemmas

section FrameLemmas

variable (st : GameSt)

lemma RecycledCount.get_bump (rc : RecycledCount) (ty t : TrashType) :
    (rc.bump ty).get t = rc.get t + (if t = ty then 1 else 0) := by
  cases ty <;> cases t <;> simp [RecycledCount.bump, RecycledCount.get]

lemma onKeyUp_frame (k : Key) :
    (onKeyUp k st).score = st.score ∧
    (onKeyUp k st).recycledCount = st.recycledCount ∧
    (onKeyUp k st).carryingItem = st.carryingItem ∧
    (onKeyUp k st).gameState = st.gameState := by
  unfold onKeyUp
  split_ifs with hg
  · exact ⟨rfl, rfl, rfl, rfl⟩
  · cases k <;> exact ⟨rfl, rfl, rfl, rfl⟩

lemma animate_frame (delta c s : ℚ) :
    (animate delta c s st).score = st.score ∧
    (animate delta c s st).recycledCount = st.recycledCount ∧
    (animate delta c s st).carryingItem = st.carryingItem ∧
    (animate delta c s st).gameState = st.gameState := by
  unfold animate
  cases hp : st.player with
  | none => exact ⟨rfl, rfl, rfl, rfl⟩
  | some p =>
    dsimp only
    split_ifs with hg
    · exact ⟨rfl, rfl, rfl, rfl⟩
    · exact ⟨rfl, rfl, rfl, rfl⟩

lemma onKeyDown_move_frame (k : Key) (hk : k ≠ Key.e) :
    (onKeyDown k st).score = st.score ∧
    (onKeyDown k st).recycledCount = st.recycledCount ∧
    (onKeyDown k st).carryingItem = st.carryingItem ∧
    (onKeyDown k st).gameState = st.gameState := by
  unfold onKeyDown
  split_ifs with hg
  · exact ⟨rfl, rfl, rfl, rfl⟩
  · cases k with
    | w => exact ⟨rfl, rfl, rfl, rfl⟩
    | s => exact ⟨rfl, rfl, rfl, rfl⟩
    | a => exact ⟨rfl, rfl, rfl, rfl⟩
    | d => exact ⟨rfl, rfl, rfl, rfl⟩
    | e => exact absurd rfl hk
    | other => exact ⟨rfl, rfl, rfl, rfl⟩

lemma tryInteract_empty_hands_frame (h : st.carryingItem = none) :
    (tryInteract st).score = st.score ∧
    (tryInteract st).recycledCount = st.recycledCount := by
  cases hp : st.player with
  | none => rw [tryInteract_no_player st hp]; exact ⟨rfl, rfl⟩
  | some p =>
    by_cases hg : st.gameState = GameState.playing
    · cases hn : findNearestTrash st.trashItems p.pos pickupDistance with
      | none => rw [tryInteract_pickup_fail st p hp hg h hn]; exact ⟨rfl, rfl⟩
      | some n => rw [tryInteract_pickup st p n hp hg h hn]; exact ⟨rfl, rfl⟩
    · rw [tryInteract_not_playing st hg]; exact ⟨rfl, rfl⟩

lemma tryInteract_nobin_frame (p : Player) (c : TrashItem)
    (hp : st.player = some p) (hg : st.gameState = GameState.playing)
    (hc : st.carryingItem = some c)
    (hb : findNearestBin st.bins p.pos binDistance = none) :
    (tryInteract st).score = st.score ∧
    (tryInteract st).recycledCount = st.recycledCount := by
  rw [tryInteract_nobin st p c hp hg hc hb]
  exact ⟨rfl, rfl⟩

end FrameLemmas

section ScenarioFacts

/- Batteries seals the arithmetic of `Rat` behind `irreducible`; concrete
evaluation of the engine needs it unfolded, locally to this section. -/
attribute [local semireducible] Rat.add Rat.sub Rat.mul Rat.inv Rat.ofScientific

lemma winDemo_run_result :
    (run winDemo winEvents).gameState = GameState.win ∧
      (run winDemo winEvents).score = 5 := by
  decide

lemma loseDemo_run_result :
    (run loseDemo loseEvents).gameState = GameState.lose ∧
      (run loseDemo loseEvents).score = -2 := by
  decide

end ScenarioFacts

section Claims

/-- C1: for every candidate set, origin and `maxRadius`, the
nearest-entity queries `findNearestTrash` and `findNearestBin` return
`none` exactly when no candidate's Euclidean distance to the origin is
strictly below `maxRadius` (so in particular when the set is empty or
every distance is at least the radius, ties at the radius excluded); any
returned candidate is a member within the radius at minimal distance;
and a candidate at strictly minimal distance below the radius is the one
returned.  The final conjunct identifies `distLt` on squared distances
with the source's comparison of the real square-root distance. -/
theorem C1_nearest_query_correct :
    (∀ (trash : List TrashItem) (origin : Vec3) (maxRadius : ℚ),
      (findNearestTrash trash origin maxRadius = none ↔
        ∀ it ∈ trash, ¬ distLt (distSq it.pos origin) maxRadius) ∧
      (∀ it, findNearestTrash trash origin maxRadius = some it →
        it ∈ trash ∧ distLt (distSq it.pos origin) maxRadius ∧
          ∀ o ∈ trash, distSq it.pos origin ≤ distSq o.pos origin) ∧
      (∀ it ∈ trash, distLt (distSq it.pos origin) maxRadius →
        (∀ o ∈ trash, o ≠ it → distSq it.pos origin < distSq o.pos origin) →
        findNearestTrash trash origin maxRadius = some it)) ∧
    (∀ (bs : List Bin) (origin : Vec3) (maxRadius : ℚ),
      (findNearestBin bs origin maxRadius = none ↔
        ∀ b ∈ bs, ¬ distLt (distSq b.pos origin) maxRadius) ∧
      (∀ b, findNearestBin bs origin maxRadius = some b →
        b ∈ bs ∧ distLt (distSq b.pos origin) maxRadius ∧
          ∀ o ∈ bs, distSq b.pos origin ≤ distSq o.pos origin) ∧
      (∀ b ∈ bs, distLt (distSq b.pos origin) maxRadius →
        (∀ o ∈ bs, o ≠ b → distSq b.pos origin < distSq o.pos origin) →
        findNearestBin bs origin maxRadius = some b)) ∧
    (∀ dq r : ℚ, 0 ≤ dq → (distLt dq r ↔ Real.sqrt (dq : ℝ) < (r : ℝ))) := by
  refine ⟨fun trash origin maxRadius => ⟨?_, ?_, ?_⟩,
    fun bs origin maxRadius => ⟨?_, ?_, ?_⟩, distLt_iff_sqrt⟩
  · have h := findNearest_eq_none_iff (fun item : TrashItem => item.pos) origin trash maxRadius
    exact h
  · intro it hit
    have h := findNearest_eq_some (fun item : TrashItem => item.pos) origin trash maxRadius it hit
    exact h
  · intro it hit hlt hmin
    have h := findNearest_strict_min (fun item : TrashItem => item.pos) origin trash maxRadius
      it hit hlt hmin
    exact h
  · have h := findNearest_eq_none_iff (fun bin : Bin => bin.pos) origin bs maxRadius
    exact h
  · intro b hb
    have h := findNearest_eq_some (fun bin : Bin => bin.pos) origin bs maxRadius b hb
    exact h
  · intro b hb hlt hmin
    have h := findNearest_strict_min (fun bin : Bin => bin.pos) origin bs maxRadius b hb hlt hmin
    exact h

/-- C3: from a playing state, `checkGameState` moves to `win` exactly
when the score is at least 5, otherwise to `lose` exactly when it is at
most -2, otherwise stays `playing`; it never changes the score, and on
ending the game it zeroes both motion intents and pauses the loaded
walk animation.  Concretely, from score 0 five pickup-and-deposit
rounds into the matching bin end with `win` at score 5, and two rounds
into the wrong bin end with `lose` at score -2. -/
theorem C3_game_progress :
    (∀ st : GameSt, st.gameState = GameState.playing →
      ((checkGameState st).gameState = GameState.win ↔ st.score ≥ 5) ∧
      ((checkGameState st).gameState = GameState.lose ↔
        (¬ st.score ≥ 5 ∧ st.score ≤ -2)) ∧
      ((checkGameState st).gameState = GameState.playing ↔
        (¬ st.score ≥ 5 ∧ ¬ st.score ≤ -2)) ∧
      (checkGameState st).score = st.score ∧
      ((checkGameState st).gameState ≠ GameState.playing →
        (checkGameState st).moveForward = 0 ∧ (checkGameState st).turn = 0 ∧
        (checkGameState st).walkAction = st.walkAction.map (fun _ => true))) ∧
    ((run winDemo winEvents).gameState = GameState.win ∧
      (run winDemo winEvents).score = 5) ∧
    ((run loseDemo loseEvents).gameState = GameState.lose ∧
      (run loseDemo loseEvents).score = -2) := by
  refine ⟨?_, winDemo_run_result, loseDemo_run_result⟩
  intro st hg
  by_cases h5 : st.score ≥ 5
  · rw [checkGameState_win st hg h5]
    refine ⟨iff_of_true rfl h5, ?_, ?_, rfl, fun _ => ⟨rfl, rfl, rfl⟩⟩
    · exact iff_of_false (by simp) (fun hx => hx.1 h5)
    · exact iff_of_false (by simp) (fun hx => hx.1 h5)
  · by_cases h2 : st.score ≤ -2
    · rw [checkGameState_lose st hg h5 h2]
      refine ⟨?_, iff_of_true rfl ⟨h5, h2⟩, ?_, rfl, fun _ => ⟨rfl, rfl, rfl⟩⟩
      · exact iff_of_false (by simp) h5
      · exact iff_of_false (by simp) (fun hx => hx.2 h2)
    · rw [checkGameState_stay st hg h5 h2]
      rw [hg]
      refine ⟨?_, ?_, iff_of_true rfl ⟨h5, h2⟩, rfl, fun hx => absurd rfl hx⟩
      · exact iff_of_false (by decide) h5
      · exact iff_of_false (by decide) (fun hx => h2 hx.2)

end Claims

/-- C2: in every state reachable by interact, key and tick events from a
state satisfying the registry invariant, the floor identities are
pairwise distinct and the carried item (when present) is absent from the
floor set — an item is never in both places and never duplicated. -/
theorem C2_carry_floor_exclusive (st : GameSt) (evs : List Event)
    (h : CarryInv st) :
    (trashIds (run st evs)).Nodup ∧
    ((run st evs).carryingItem = none ∨
      ∃ c, (run st evs).carryingItem = some c ∧ c.id ∉ trashIds (run st evs)) := by
  have h' := carryInv_run st evs h
  unfold CarryInv at h'
  rw [List.nodup_append] at h'
  refine ⟨h'.1, ?_⟩
  cases hc : (run st evs).carryingItem with
  | none => exact Or.inl rfl
  | some c =>
    refine Or.inr ⟨c, rfl, ?_⟩
    intro hmem
    have hmem' : c.id ∈ carriedIds (run st evs) := by
      unfold carriedIds
      rw [hc]
      exact List.mem_singleton.mpr rfl
    exact h'.2.2 hmem hmem'

/-- C4: with the game playing, an item carried and a bin found within
`binDistance`, the deposit moves the score by exactly +1 on a category
match and exactly -1 on a mismatch, and bumps exactly the matching
category's deposited count on a match and none on a mismatch; no other
event — pickup, failed interact, key events, ticks, or anything outside
`playing` — ever changes the score; and any change of a per-category
count is a +1 caused by a correct deposit of that category. -/
theorem C4_score_delta_per_deposit :
    (∀ (st : GameSt) (p : Player) (c : TrashItem) (b : Bin),
      st.player = some p → st.gameState = GameState.playing →
      st.carryingItem = some c →
      findNearestBin st.bins p.pos binDistance = some b →
      (tryInteract st).score = st.score + (if b.type = c.type then 1 else -1) ∧
      (∀ t : TrashType, (tryInteract st).recycledCount.get t =
        st.recycledCount.get t + (if b.type = c.type ∧ t = b.type then 1 else 0))) ∧
    (∀ (st : GameSt) (ev : Event), (step st ev).score ≠ st.score →
      ∃ (p : Player) (c : TrashItem) (b : Bin),
        st.player = some p ∧ st.gameState = GameState.playing ∧
        st.carryingItem = some c ∧
        findNearestBin st.bins p.pos binDistance = some b ∧
        (ev = Event.interact ∨ ev = Event.keyDown Key.e)) ∧
    (∀ (st : GameSt) (ev : Event) (t : TrashType),
      (step st ev).recycledCount.get t ≠ st.recycledCount.get t →
      (step st ev).recycledCount.get t = st.recycledCount.get t + 1 ∧
      ∃ (p : Player) (c : TrashItem) (b : Bin),
        st.player = some p ∧ st.gameState = GameState.playing ∧
        st.carryingItem = some c ∧
        findNearestBin st.bins p.pos binDistance = some b ∧
        b.type = c.type ∧ c.type = t ∧ (step st ev).score = st.score + 1) := by
  refine ⟨?_, ?_, ?_⟩
  · intro st p c b hp hg hc hb
    by_cases hty : b.type = c.type
    · rw [tryInteract_deposit_correct st p c b hp hg hc hb hty]
      constructor
      · rw [checkGameState_score, if_pos hty]
      · intro t
        rw [checkGameState_recycledCount]
        show (st.recycledCount.bump b.type).get t = _
        rw [RecycledCount.get_bump]
        by_cases hts : t = b.type
        · rw [if_pos hts, if_pos ⟨hty, hts⟩]
        · rw [if_neg hts, if_neg (fun hx => hts hx.2)]
    · rw [tryInteract_deposit_wrong st p c b hp hg hc hb hty]
      constructor
      · rw [checkGameState_score, if_neg hty]
        show st.score - 1 = st.score + -1
        omega
      · intro t
        rw [checkGameState_recycledCount, if_neg (fun hx => hty hx.1)]
        rfl
  · intro st ev hne
    by_cases hg : st.gameState = GameState.playing
    · have H : (tryInteract st).score ≠ st.score →
          ∃ (p : Player) (c : TrashItem) (b : Bin),
            st.player = some p ∧ st.gameState = GameState.playing ∧
            st.carryingItem = some c ∧
            findNearestBin st.bins p.pos binDistance = some b := by
        intro hne'
        cases hp : st.player with
        | none => rw [tryInteract_no_player st hp] at hne'; exact absurd rfl hne'
        | some p =>
          cases hc : st.carryingItem with
          | none => exact absurd (tryInteract_empty_hands_frame st hc).1 hne'
          | some c =>
            cases hb : findNearestBin st.bins p.pos binDistance with
            | none => exact absurd (tryInteract_nobin_frame st p c hp hg hc hb).1 hne'
            | some b => exact ⟨p, c, b, rfl, hg, rfl, hb⟩
      cases ev with
      | keyDown k =>
        cases k with
        | w => exact absurd (onKeyDown_move_frame st Key.w (by decide)).1 hne
        | s => exact absurd (onKeyDown_move_frame st Key.s (by decide)).1 hne
        | a => exact absurd (onKeyDown_move_frame st Key.a (by decide)).1 hne
        | d => exact absurd (onKeyDown_move_frame st Key.d (by decide)).1 hne
        | e =>
          have hs : step st (Event.keyDown Key.e) = tryInteract st := by
            show onKeyDown Key.e st = tryInteract st
            unfold onKeyDown
            rw [if_neg (not_not_intro hg)]
          rw [hs] at hne
          rcases H hne with ⟨p, c, b, h1, h2, h3, h4⟩
          exact ⟨p, c, b, h1, h2, h3, h4, Or.inr rfl⟩
        | other => exact absurd (onKeyDown_move_frame st Key.other (by decide)).1 hne
      | keyUp k => exact absurd (onKeyUp_frame st k).1 hne
      | interact =>
        rcases H hne with ⟨p, c, b, h1, h2, h3, h4⟩
        exact ⟨p, c, b, h1, h2, h3, h4, Or.inl rfl⟩
      | tick delta cc ss => exact absurd (animate_frame st delta cc ss).1 hne
    · rw [step_not_playing st ev hg] at hne
      exact absurd rfl hne
  · intro st ev t hne
    by_cases hg : st.gameState = GameState.playing
    · have H : (tryInteract st).recycledCount.get t ≠ st.recycledCount.get t →
          (tryInteract st).recycledCount.get t = st.recycledCount.get t + 1 ∧
          ∃ (p : Player) (c : TrashItem) (b : Bin),
            st.player = some p ∧ st.gameState = GameState.playing ∧
            st.carryingItem = some c ∧
            findNearestBin st.bins p.pos binDistance = some b ∧
            b.type = c.type ∧ c.type = t ∧ (tryInteract st).score = st.score + 1 := by
        intro hne'
        cases hp : st.player with
        | none => rw [tryInteract_no_player st hp] at hne'; exact absurd rfl hne'
        | some p =>
          cases hc : st.carryingItem with
          | none =>
            rw [(tryInteract_empty_hands_frame st hc).2] at hne'
            exact absurd rfl hne'
          | some c =>
            cases hb : findNearestBin st.bins p.pos binDistance with
            | none =>
              rw [(tryInteract_nobin_frame st p c hp hg hc hb).2] at hne'
              exact absurd rfl hne'
            | some b =>
              by_cases hty : b.type = c.type
              · rw [tryInteract_deposit_correct st p c b hp hg hc hb hty] at hne' ⊢
                rw [checkGameState_recycledCount] at hne' ⊢
                by_cases hts : t = b.type
                · refine ⟨?_, p, c, b, rfl, hg, rfl, hb, hty, (hts.trans hty).symm, ?_⟩
                  · show (st.recycledCount.bump b.type).get t = _
                    rw [RecycledCount.get_bump, if_pos hts]
                  · rw [checkGameState_score]
                · exfalso
                  apply hne'
                  show (st.recycledCount.bump b.type).get t = _
                  rw [RecycledCount.get_bump, if_neg hts]
                  rfl
              · rw [tryInteract_deposit_wrong st p c b hp hg hc hb hty,
                  checkGameState_recycledCount] at hne'
                exact absurd rfl hne'
      cases ev with
      | keyDown k =>
        cases k with
        | w => exact absurd (congrArg (fun rc => RecycledCount.get rc t)
                 (onKeyDown_move_frame st Key.w (by decide)).2.1) hne
        | s => exact absurd (congrArg (fun rc => RecycledCount.get rc t)
                 (onKeyDown_move_frame st Key.s (by decide)).2.1) hne
        | a => exact absurd (congrArg (fun rc => RecycledCount.get rc t)
                 (onKeyDown_move_frame st Key.a (by decide)).2.1) hne
        | d => exact absurd (congrArg (fun rc => RecycledCount.get rc t)
                 (onKeyDown_move_frame st Key.d (by decide)).2.1) hne
        | e =>
          have hs : step st (Event.keyDown Key.e) = tryInteract st := by
            show onKeyDown Key.e st = tryInteract st
            unfold onKeyDown
            rw [if_neg (not_not_intro hg)]
          rw [hs] at hne ⊢
          exact H hne
        | other => exact absurd (congrArg (fun rc => RecycledCount.get rc t)
                     (onKeyDown_move_frame st Key.other (by decide)).2.1) hne
      | keyUp k =>
        exact absurd (congrArg (fun rc => RecycledCount.get rc t)
          (onKeyUp_frame st k).2.1) hne
      | interact => exact H hne
      | tick delta cc ss =>
        exact absurd (congrArg (fun rc => RecycledCount.get rc t)
          (animate_frame st delta cc ss).2.1) hne
    · rw [step_not_playing st ev hg] at hne
      exact absurd rfl hne

/-- C5: a finished game is absorbing — from any state whose `gameState`
is not `playing`, every sequence of interact, key and tick events leaves
the whole state (in particular `gameState`, `score`, the carry slot and
the player's position) untouched. -/
theorem C5_terminal_absorbing (st : GameSt) (evs : List Event)
    (h : st.gameState ≠ GameState.playing) :
    run st evs = st ∧
    (run st evs).gameState = st.gameState ∧
    (run st evs).score = st.score ∧
    (run st evs).carryingItem = st.carryingItem ∧
    (run st evs).player = st.player := by
  have heq := run_not_playing st evs h
  exact ⟨heq, by rw [heq], by rw [heq], by rw [heq], by rw [heq]⟩

/-- C6: depositing into a mismatched bin while playing discards the
carried item for good — the score drops by exactly 1, every per-category
count is unchanged, the carry slot clears, the floor set is unchanged,
and no later sequence of events ever puts the item back on the floor. -/
theorem C6_wrong_deposit_discards (st : GameSt) (p : Player) (c : TrashItem)
    (b : Bin) (evs : List Event)
    (hp : st.player = some p) (hg : st.gameState = GameState.playing)
    (hc : st.carryingItem = some c)
    (hb : findNearestBin st.bins p.pos binDistance = some b)
    (hty : b.type ≠ c.type) (hfl : c.id ∉ trashIds st) :
    (tryInteract st).score = st.score - 1 ∧
    (tryInteract st).recycledCount = st.recycledCount ∧
    (tryInteract st).carryingItem = none ∧
    (tryInteract st).trashItems = st.trashItems ∧
    c.id ∉ trashIds (run (tryInteract st) evs) := by
  rw [tryInteract_deposit_wrong st p c b hp hg hc hb hty]
  refine ⟨?_, ?_, ?_, ?_, ?_⟩
  · rw [checkGameState_score]
  · rw [checkGameState_recycledCount]
  · rw [checkGameState_carryingItem]
  · rw [checkGameState_trashItems]
  · intro hmem
    apply hfl
    have hsub := trashItems_run_sublist
      (checkGameState
        { st with
            score := st.score - 1,
            carryingItem := none,
            hudMessage := "Contenedor incorrecto. -1 punto. Puntos: "
              ++ toString (st.score - 1) }) evs
    have hsub' := List.Sublist.map (fun t : TrashItem => t.id) hsub
    have hmem' := hsub'.subset hmem
    rw [checkGameState_trashItems] at hmem'
    exact hmem'

/-- C7: interacting while carrying with every bin at distance at least
`binDistance` only rewrites the HUD message — carry slot, score,
per-category counts, game state and floor set are all left unchanged. -/
theorem C7_no_bin_in_range_frame (st : GameSt) (p : Player) (c : TrashItem)
    (hp : st.player = some p) (hg : st.gameState = GameState.playing)
    (hc : st.carryingItem = some c)
    (hfar : ∀ b ∈ st.bins, ¬ distLt (distSq b.pos p.pos) binDistance) :
    tryInteract st =
      { st with hudMessage := "No hay ningún contenedor cerca. Acércate más." } ∧
    (tryInteract st).score = st.score ∧
    (tryInteract st).carryingItem = st.carryingItem ∧
    (tryInteract st).recycledCount = st.recycledCount ∧
    (tryInteract st).gameState = st.gameState ∧
    (tryInteract st).trashItems = st.trashItems := by
  have hb : findNearestBin st.bins p.pos binDistance = none := by
    have h := (findNearest_eq_none_iff (fun bin : Bin => bin.pos) p.pos st.bins binDistance).mpr hfar
    exact h
  have heq := tryInteract_nobin st p c hp hg hc hb
  exact ⟨heq, by rw [heq], by rw [heq], by rw [heq], by rw [heq], by rw [heq]⟩

/-- C8: a successful pickup sets the item's local scale componentwise to
`baseScale / anchorWorldScale`, so that composing with the anchor's
world scale restores the original `baseScale` in each component. -/
theorem C8_pickup_scale_compensation (st : GameSt) (p : Player) (n : TrashItem)
    (hp : st.player = some p) (hg : st.gameState = GameState.playing)
    (hc : st.carryingItem = none)
    (hn : findNearestTrash st.trashItems p.pos pickupDistance = some n)
    (hx : p.anchorScale.x ≠ 0) (hy : p.anchorScale.y ≠ 0)
    (hz : p.anchorScale.z ≠ 0) :
    ∃ c, (tryInteract st).carryingItem = some c ∧
      c.scale = ⟨n.baseScale / p.anchorScale.x,
                 n.baseScale / p.anchorScale.y,
                 n.baseScale / p.anchorScale.z⟩ ∧
      p.anchorScale.x * c.scale.x = n.baseScale ∧
      p.anchorScale.y * c.scale.y = n.baseScale ∧
      p.anchorScale.z * c.scale.z = n.baseScale := by
  rw [tryInteract_pickup st p n hp hg hc hn]
  refine ⟨_, rfl, rfl, ?_, ?_, ?_⟩
  · show p.anchorScale.x * (n.baseScale / p.anchorScale.x) = n.baseScale
    rw [mul_comm]
    exact div_mul_cancel₀ _ hx
  · show p.anchorScale.y * (n.baseScale / p.anchorScale.y) = n.baseScale
    rw [mul_comm]
    exact div_mul_cancel₀ _ hy
  · show p.anchorScale.z * (n.baseScale / p.anchorScale.z) = n.baseScale
    rw [mul_comm]
    exact div_mul_cancel₀ _ hz

/-- C9: from any playing state with score 0 — the initial configuration
— every sequence of interact, key and tick events keeps the score within
`[-2, 5]`. -/
theorem C9_score_bounded (st : GameSt) (evs : List Event)
    (h0 : st.score = 0) (hg : st.gameState = GameState.playing) :
    -2 ≤ (run st evs).score ∧ (run st evs).score ≤ 5 := by
  have hinv : ScoreInv st := by
    unfold ScoreInv
    rw [if_pos hg, h0]
    exact ⟨by decide, by decide⟩
  have h' := scoreInv_run st evs hinv
  unfold ScoreInv at h'
  split_ifs at h' with hcase
  · exact ⟨by omega, by omega⟩
  · exact h'

/-- C10: before the player model has loaded (`player` unset), interact —
whether invoked directly or through the `e` key — is a complete no-op on
the state. -/
theorem C10_no_player_noop (st : GameSt) (h : st.player = none) :
    tryInteract st = st ∧ onKeyDown Key.e st = st := by
  refine ⟨tryInteract_no_player st h, ?_⟩
  unfold onKeyDown
  split_ifs with hg
  · rfl
  · exact tryInteract_no_player st h

section Witnesses

/- Concrete evaluation again needs the sealed `Rat` arithmetic unfolded,
locally to this section. -/
attribute [local semireducible] Rat.add Rat.sub Rat.mul Rat.inv Rat.ofScientific

/-- Witness for C1 at a concrete query: of two items at distances 5 and
30 from the origin, the strictly nearest one within radius 40 is
returned. -/
theorem C1_witness :
    findNearestTrash
        [demoTrash 0 TrashType.organico ⟨3, 4, 0⟩,
         demoTrash 1 TrashType.general ⟨30, 0, 0⟩]
        ⟨0, 0, 0⟩ 40
      = some (demoTrash 0 TrashType.organico ⟨3, 4, 0⟩) :=
  (C1_nearest_query_correct.1
      [demoTrash 0 TrashType.organico ⟨3, 4, 0⟩,
       demoTrash 1 TrashType.general ⟨30, 0, 0⟩]
      ⟨0, 0, 0⟩ 40).2.2
    (demoTrash 0 TrashType.organico ⟨3, 4, 0⟩)
    (by decide) (by decide) (by decide)

/-- Witness for C2 on the winning demo play. -/
theorem C2_witness :
    (trashIds (run winDemo winEvents)).Nodup ∧
    ((run winDemo winEvents).carryingItem = none ∨
      ∃ c, (run winDemo winEvents).carryingItem = some c ∧
        c.id ∉ trashIds (run winDemo winEvents)) :=
  C2_carry_floor_exclusive winDemo winEvents (by decide)

/-- Witness for C3 at a concrete playing state that reached score 5. -/
theorem C3_witness : (checkGameState fiveDemo).gameState = GameState.win :=
  ((C3_game_progress.1 fiveDemo (by decide)).1).mpr (by decide)

/-- Witness for C4: a correct deposit next to the organic bin. -/
theorem C4_witness :
    (tryInteract carryDemo).score = carryDemo.score +
      (if (Bin.mk ⟨0, 0, 50⟩ TrashType.organico).type
          = (demoTrash 9 TrashType.organico ⟨1/10, 3/10, 2/10⟩).type
        then 1 else -1) ∧
    (∀ t : TrashType, (tryInteract carryDemo).recycledCount.get t =
      carryDemo.recycledCount.get t +
        (if (Bin.mk ⟨0, 0, 50⟩ TrashType.organico).type
            = (demoTrash 9 TrashType.organico ⟨1/10, 3/10, 2/10⟩).type
          ∧ t = (Bin.mk ⟨0, 0, 50⟩ TrashType.organico).type then 1 else 0)) :=
  C4_score_delta_per_deposit.1 carryDemo demoPlayer
    (demoTrash 9 TrashType.organico ⟨1/10, 3/10, 2/10⟩)
    (Bin.mk ⟨0, 0, 50⟩ TrashType.organico)
    (by decide) (by decide) (by decide) (by decide)

/-- Witness for C5 on a finished session hit with further events. -/
theorem C5_witness :
    run wonDemo [Event.interact, Event.keyDown Key.w, Event.tick 1 1 0]
        = wonDemo ∧
    (run wonDemo [Event.interact, Event.keyDown Key.w, Event.tick 1 1 0]).gameState
        = wonDemo.gameState ∧
    (run wonDemo [Event.interact, Event.keyDown Key.w, Event.tick 1 1 0]).score
        = wonDemo.score ∧
    (run wonDemo [Event.interact, Event.keyDown Key.w, Event.tick 1 1 0]).carryingItem
        = wonDemo.carryingItem ∧
    (run wonDemo [Event.interact, Event.keyDown Key.w, Event.tick 1 1 0]).player
        = wonDemo.player :=
  C5_terminal_absorbing wonDemo
    [Event.interact, Event.keyDown Key.w, Event.tick 1 1 0] (by decide)

/-- Witness for C6: an organic item deposited into the recyclable bin,
followed by another interaction. -/
theorem C6_witness :
    (tryInteract wrongBinDemo).score = wrongBinDemo.score - 1 ∧
    (tryInteract wrongBinDemo).recycledCount = wrongBinDemo.recycledCount ∧
    (tryInteract wrongBinDemo).carryingItem = none ∧
    (tryInteract wrongBinDemo).trashItems = wrongBinDemo.trashItems ∧
    (demoTrash 9 TrashType.organico ⟨1/10, 3/10, 2/10⟩).id ∉
      trashIds (run (tryInteract wrongBinDemo) [Event.interact]) :=
  C6_wrong_deposit_discards wrongBinDemo demoPlayer
    (demoTrash 9 TrashType.organico ⟨1/10, 3/10, 2/10⟩)
    (Bin.mk ⟨0, 0, 50⟩ TrashType.reciclable)
    [Event.interact]
    (by decide) (by decide) (by decide) (by decide) (by decide) (by decide)

/-- Witness for C7: carrying next to a bin 500 units away. -/
theorem C7_witness :
    tryInteract farBinDemo =
      { farBinDemo with
          hudMessage := "No hay ningún contenedor cerca. Acércate más." } ∧
    (tryInteract farBinDemo).score = farBinDemo.score ∧
    (tryInteract farBinDemo).carryingItem = farBinDemo.carryingItem ∧
    (tryInteract farBinDemo).recycledCount = farBinDemo.recycledCount ∧
    (tryInteract farBinDemo).gameState = farBinDemo.gameState ∧
    (tryInteract farBinDemo).trashItems = farBinDemo.trashItems :=
  C7_no_bin_in_range_frame farBinDemo demoPlayer
    (demoTrash 9 TrashType.organico ⟨1/10, 3/10, 2/10⟩)
    (by decide) (by decide) (by decide) (by decide)

/-- Witness for C8: picking up an item under an anchor of world scale
30. -/
theorem C8_witness :
    ∃ c, (tryInteract winDemo).carryingItem = some c ∧
      c.scale = ⟨(demoTrash 0 TrashType.organico ⟨0, 0, 0⟩).baseScale / demoPlayer.anchorScale.x,
                 (demoTrash 0 TrashType.organico ⟨0, 0, 0⟩).baseScale / demoPlayer.anchorScale.y,
                 (demoTrash 0 TrashType.organico ⟨0, 0, 0⟩).baseScale / demoPlayer.anchorScale.z⟩ ∧
      demoPlayer.anchorScale.x * c.scale.x
          = (demoTrash 0 TrashType.organico ⟨0, 0, 0⟩).baseScale ∧
      demoPlayer.anchorScale.y * c.scale.y
          = (demoTrash 0 TrashType.organico ⟨0, 0, 0⟩).baseScale ∧
      demoPlayer.anchorScale.z * c.scale.z
          = (demoTrash 0 TrashType.organico ⟨0, 0, 0⟩).baseScale :=
  C8_pickup_scale_compensation winDemo demoPlayer
    (demoTrash 0 TrashType.organico ⟨0, 0, 0⟩)
    (by decide) (by decide) (by decide) (by decide)
    (by decide) (by decide) (by decide)

/-- Witness for C9 on the winning demo play. -/
theorem C9_witness :
    -2 ≤ (run winDemo winEvents).score ∧ (run winDemo winEvents).score ≤ 5 :=
  C9_score_bounded winDemo winEvents (by decide) (by decide)

/-- Witness for C10 on a session whose player never loaded. -/
theorem C10_witness :
    tryInteract noPlayerDemo = noPlayerDemo ∧
      onKeyDown Key.e noPlayerDemo = noPlayerDemo :=
  C10_no_player_noop noPlayerDemo (by decide)

end Witnesses
